import Mathlib

/-!
# PowerDNS provider of ddns-updater

A shallow embedding of `internal/provider/providers/powerdns/provider.go`.

* Go `string` is `String`, `uint32` is a `Nat` below `2 ^ 32`, `int` is `Int`.
* A Go `error` is a `GoError` tree (text plus what `Unwrap` yields), `nil` is `none`.
* Functions of sibling packages whose source is not part of this development
  (`utils`, `headers`, `errors`, `constants`) and the standard library's URL
  grammar are fields of `Deps`; every theorem holds for all of them.
* `client.Do` is a function from the request to its outcome, and `Update`
  records every request it hands to the client.
-/

namespace PowerDNS

/-! ## Errors -/

/-- Package-level error values of `internal/provider/errors` named in provider.go. -/
inductive Sentinel where
  | ErrDomainNotValid
  | ErrURLNotSet
  | ErrAPIKeyNotSet
  | ErrHTTPStatusNotValid
  deriving DecidableEq, Repr

/-- A Go error value: a package-level sentinel, an error value that unwraps to
nothing (`leaf`), or an error with its own text that unwraps to one error
(`fmt.Errorf` with one `%w`) or to two (`fmt.Errorf` with two `%w`). -/
inductive GoError where
  | sentinel (s : Sentinel)
  | leaf (msg : String)
  | wrap1 (msg : String) (inner : GoError)
  | wrap2 (msg : String) (first second : GoError)
  deriving DecidableEq, Repr

/-- Go `errors.Is(err, target)` for a sentinel target: the error is the target,
or something it unwraps to is (depth first, all branches). -/
def GoError.Is : GoError → Sentinel → Bool
  | .sentinel s, t => decide (s = t)
  | .leaf _, _ => false
  | .wrap1 _ e, t => e.Is t
  | .wrap2 _ a b, t => a.Is t || b.Is t

/-! ## net/netip -/

/-- Go `netip.Addr`: the zero value, an IPv4 address (32 bits), or an IPv6
address (128 bits) with its zone, the empty zone meaning none. Bits beyond the
width are ignored by every operation. -/
inductive Addr where
  | zero
  | v4 (bits : Nat)
  | v6 (bits : Nat) (zone : String)
  deriving DecidableEq, Repr

/-- Go `Addr.Is4`. -/
def Addr.Is4 : Addr → Bool
  | .v4 _ => true
  | _ => false

/-- Go `Addr.Is6`: neither the zero value nor an IPv4 address; an IPv4-mapped
IPv6 address is an IPv6 address. -/
def Addr.Is6 : Addr → Bool
  | .v6 _ _ => true
  | _ => false

/-- Go `Addr.IsValid`. -/
def Addr.IsValid : Addr → Bool
  | .zero => false
  | _ => true

/-- Decimal digits of a natural number, as `strconv.AppendUint(b, n, 10)`. -/
def decimal (n : Nat) : List Char := Nat.toDigits 10 n

/-- Go `appendTo4`: the dotted quad of the low 32 bits. -/
def string4 (bits : Nat) : List Char :=
  decimal (bits / 2 ^ 24 % 256) ++ '.' :: decimal (bits / 2 ^ 16 % 256)
    ++ '.' :: decimal (bits / 2 ^ 8 % 256) ++ '.' :: decimal (bits % 256)

/-- Go `Addr.v6u16`: the `i`-th 16-bit group, `0` the most significant. -/
def v6u16 (bits i : Nat) : Nat := bits / 2 ^ (16 * (7 - i)) % 65536

/-- Inner loop of `appendTo6`: `for j < 8 && ip.v6u16(j) == 0 { j++ }`. -/
def zeroRunEnd (bits : Nat) : Nat → Nat → Nat
  | 0, j => j
  | fuel + 1, j => if j < 8 ∧ v6u16 bits j = 0 then zeroRunEnd bits fuel (j + 1) else j

/-- First loop of `appendTo6`: the leftmost longest run of at least two zero
groups as `(zeroStart, zeroEnd)`, `(255, 255)` when there is none. -/
def zeroRun (bits : Nat) : Nat × Nat :=
  (List.range 8).foldl
    (fun (acc : Nat × Nat) i =>
      let j := zeroRunEnd bits 8 i
      if 2 ≤ j - i ∧ acc.2 - acc.1 < j - i then (i, j) else acc)
    (255, 255)

/-- Second loop of `appendTo6`, from group `i` on. -/
def groups6 (bits zeroStart zeroEnd : Nat) : Nat → Nat → List Char → List Char
  | 0, _, ret => ret
  | fuel + 1, i, ret =>
    if 8 ≤ i then ret
    else if i = zeroStart then
      let ret := ret ++ [':', ':']
      if 8 ≤ zeroEnd then ret
      else groups6 bits zeroStart zeroEnd fuel (zeroEnd + 1)
        (ret ++ Nat.toDigits 16 (v6u16 bits zeroEnd))
    else
      let ret := if 0 < i then ret ++ [':'] else ret
      groups6 bits zeroStart zeroEnd fuel (i + 1) (ret ++ Nat.toDigits 16 (v6u16 bits i))

/-- The zone suffix that `appendTo6` and `appendTo4In6` add. -/
def zoneSuffix (zone : String) : List Char :=
  if zone = "" then [] else '%' :: zone.data

/-- Go `Addr.Is4In6` on the 128 bits. -/
def is4In6 (bits : Nat) : Bool := decide (bits % 2 ^ 128 / 2 ^ 32 = 0xffff)

/-- Go `Addr.String`. -/
def Addr.String : Addr → String
  | .zero => "invalid IP"
  | .v4 bits => ⟨string4 bits⟩
  | .v6 bits zone =>
    if is4In6 bits then ⟨"::ffff:".data ++ string4 bits ++ zoneSuffix zone⟩
    else ⟨groups6 bits (zeroRun bits).1 (zeroRun bits).2 8 0 [] ++ zoneSuffix zone⟩

/-- Go `netip.Prefix`. -/
structure Prefix where
  ip : Addr
  bitsPlusOne : Nat
  deriving DecidableEq, Repr

/-- Modelled from the spec: the type `ipversion.IPVersion` of
`pkg/publicip/ipversion`, a policy selecting IPv4, IPv6 or both. -/
inductive IPVersion where
  | IP4or6
  | IP4
  | IP6
  deriving DecidableEq, Repr

/-! ## encoding/json -/

/-- The parse tree of a JSON text; a number keeps its literal. -/
inductive JsonValue where
  | null
  | bool (b : Bool)
  | number (literal : String)
  | str (s : String)
  | arr (elems : List JsonValue)
  | obj (members : List (String × JsonValue))

/-- Go `json.RawMessage` as `json.Unmarshal` sees it: bytes that are not a JSON
text, or a JSON text given by its parse tree. -/
inductive RawMessage where
  | malformed
  | document (v : JsonValue)

/-- The member of an object under a key, the first one. -/
def JsonValue.get? : JsonValue → String → Option JsonValue
  | .obj members, key => (members.find? (fun kv => kv.1 = key)).map (fun kv => kv.2)
  | _, _ => none

/-- The elements of an array, none for any other value. -/
def JsonValue.elems : JsonValue → List JsonValue
  | .arr xs => xs
  | _ => []

/-- What `UnmarshalTypeError.Value` calls a JSON value. -/
def JsonValue.kind : JsonValue → String
  | .null => "null"
  | .bool _ => "bool"
  | .number _ => "number"
  | .str _ => "string"
  | .arr _ => "array"
  | .obj _ => "object"

/-- Why `json.Unmarshal` failed: a `SyntaxError`, or an `UnmarshalTypeError`
with its `Value` and `Field`. -/
inductive JsonFailure where
  | invalidText
  | typeMismatch (value field : String)
  deriving DecidableEq, Repr

/-- The anonymous struct `extraSettings` that `New` decodes into. -/
structure extraSettings where
  ServerURL : String
  APIKey : String
  ServerID : String
  TTL : Nat
  deriving DecidableEq, Repr

/-- The fields of `extraSettings`. -/
inductive Field where
  | ServerURL
  | APIKey
  | ServerID
  | TTL
  deriving DecidableEq, Repr

/-- The `json:"..."` tag of a field. -/
def Field.tag : Field → String
  | .ServerURL => "server_url"
  | .APIKey => "api_key"
  | .ServerID => "server_id"
  | .TTL => "ttl"

/-- Go `foldRune` of encoding/json on the runes that matter for ASCII names:
ASCII letters fold to upper case, U+017F to `S`, U+212A to `K`. Every other
rune outside ASCII folds to a rune outside ASCII and is left as it is. -/
def foldRune (c : Char) : Char :=
  if c.isLower then c.toUpper
  else if c = Char.ofNat 0x17F then 'S'
  else if c = Char.ofNat 0x212A then 'K'
  else c

/-- Go `foldName`. -/
def foldName (s : String) : List Char := s.data.map foldRune

/-- The field an object key decodes into: the one whose name equals the key
exactly or, failing that, under case folding. No two tags fold alike, so the
folded comparison decides both. -/
def lookupField (key : String) : Option Field :=
  [Field.ServerURL, Field.APIKey, Field.ServerID, Field.TTL].find?
    (fun f => foldName key = foldName f.tag)

/-- Go `strconv.ParseUint(literal, 10, 64)` followed by the `OverflowUint`
test for 32 bits. -/
def parseUint32 (literal : String) : Option Nat :=
  if literal.data ≠ [] ∧ literal.data.all Char.isDigit then
    let n := literal.data.foldl (fun acc c => 10 * acc + (c.toNat - 48)) 0
    if n < 2 ^ 32 then some n else none
  else none

/-- Storing one JSON value into one field: `null` leaves the field as it is, a
value of the wrong kind is a type mismatch that also leaves it as it is. -/
def storeField (s : extraSettings) (f : Field) (v : JsonValue) :
    extraSettings × Option JsonFailure :=
  match f, v with
  | _, .null => (s, none)
  | .ServerURL, .str x => ({ s with ServerURL := x }, none)
  | .APIKey, .str x => ({ s with APIKey := x }, none)
  | .ServerID, .str x => ({ s with ServerID := x }, none)
  | .TTL, .number literal =>
    match parseUint32 literal with
    | some n => ({ s with TTL := n }, none)
    | none => (s, some (.typeMismatch ("number " ++ literal) f.tag))
  | _, v => (s, some (.typeMismatch v.kind f.tag))

/-- Decoding the members of an object in order: unknown keys are skipped, a
later member overwrites an earlier one, the first type mismatch is kept while
decoding goes on. -/
def decodeMembers : List (String × JsonValue) → extraSettings × Option JsonFailure →
    extraSettings × Option JsonFailure
  | [], acc => acc
  | (key, v) :: rest, (s, saved) =>
    match lookupField key with
    | none => decodeMembers rest (s, saved)
    | some f =>
      let r := storeField s f v
      decodeMembers rest (r.1, if saved.isSome then saved else r.2)

/-- Go `json.Unmarshal(data, &s)`: the struct afterwards and the failure, if any. -/
def jsonUnmarshal (data : RawMessage) (s : extraSettings) : extraSettings × Option JsonFailure :=
  match data with
  | .malformed => (s, some .invalidText)
  | .document .null => (s, none)
  | .document (.obj members) => decodeMembers members (s, none)
  | .document v => (s, some (.typeMismatch v.kind ""))

/-! ## net/http -/

/-- Go `http.Header`, a map from canonical key to values. -/
abbrev Header := String → Option (List String)

/-- The bytes `textproto` accepts in a header field name. -/
def validHeaderFieldByte (c : Char) : Bool :=
  c.isAlphanum || [33, 35, 36, 37, 38, 39, 42, 43, 45, 46, 94, 95, 96, 124, 126].contains c.toNat

/-- The canonicalizing loop of `textproto.CanonicalMIMEHeaderKey`: upper case
at the start and after a hyphen, lower case elsewhere. -/
def canonicalLoop : Bool → List Char → List Char
  | _, [] => []
  | upper, c :: cs =>
    let c1 := if upper && c.isLower then c.toUpper
      else if !upper && c.isUpper then c.toLower else c
    c1 :: canonicalLoop (c1 == '-') cs

/-- Go `textproto.CanonicalMIMEHeaderKey`: a key with a byte that is not valid
in a field name is returned unchanged. -/
def CanonicalMIMEHeaderKey (key : String) : String :=
  if key.data.all validHeaderFieldByte then ⟨canonicalLoop true key.data⟩ else key

/-- Go `Header.Set`. -/
def Header.Set (h : Header) (key value : String) : Header :=
  fun k => if k = CanonicalMIMEHeaderKey key then some [value] else h k

/-- Go `Header.Del`. -/
def Header.Del (h : Header) (key : String) : Header :=
  fun k => if k = CanonicalMIMEHeaderKey key then none else h k

/-- Go `context.Context` as far as `http.NewRequestWithContext` looks at it. -/
inductive Context where
  | nil
  | live
  deriving DecidableEq, Repr

/-- Go `http.Request`: method, the URL text it was created from, header, and
the JSON text in its body. -/
structure Request where
  method : String
  url : String
  header : Header
  body : JsonValue

/-- Go `http.Response`: status code and the bytes of the body. -/
structure Response where
  StatusCode : Int
  Body : String
  deriving DecidableEq, Repr

/-- Go `http.StatusNoContent`. -/
def StatusNoContent : Int := 204

/-- Go `http.MethodPatch`. -/
def MethodPatch : String := "PATCH"

/-! ## Functions and constants of packages outside provider.go -/

/-- What provider.go uses from packages whose source is not part of this
development, and from the standard library where only the text matters. -/
structure Deps where
  /-- `Error()` of the values of `internal/provider/errors`. -/
  errText : Sentinel → String
  /-- `utils.CheckDomain`: `none` is a nil error. -/
  CheckDomain : String → Option GoError
  /-- `utils.BuildURLQueryHostname`. -/
  BuildURLQueryHostname : String → String → String
  /-- `utils.BuildDomainName`. -/
  BuildDomainName : String → String → String
  /-- `utils.ToString`. -/
  ToString : String → String → String → IPVersion → String
  /-- `utils.BodyToSingleLine` on the bytes of the body. -/
  BodyToSingleLine : String → String
  /-- `headers.SetUserAgent`; it attaches a header (§4.2 step 4), so it acts on
  the header of the request. -/
  SetUserAgent : Header → Header
  /-- `headers.SetContentType`; it attaches a header (§4.2 step 4), so it acts
  on the header of the request. -/
  SetContentType : Header → String → Header
  /-- `constants.PowerDNS`. -/
  PowerDNS : String
  /-- `IPVersion.String`. -/
  ipVersionString : IPVersion → String
  /-- `url.Parse`: the text of the error, `none` when the URL parses. The error
  is one of net/url and unwraps to no error of this repository. -/
  urlParse : String → Option String
  /-- `Error()` of the error `json.Unmarshal` returns for a failure. -/
  jsonErrorText : JsonFailure → String

/-- Go `err.Error()`. -/
def GoError.Error (deps : Deps) : GoError → String
  | .sentinel s => deps.errText s
  | .leaf msg => msg
  | .wrap1 msg _ => msg
  | .wrap2 msg _ _ => msg

/-- Modelled from the spec: `constants.A`, the record type for IPv4 (§6:
`"type": "A"|"AAAA"`). -/
def A : String := "A"

/-- Modelled from the spec: `constants.AAAA`, the record type for IPv6 (§6:
`"type": "A"|"AAAA"`). -/
def AAAA : String := "AAAA"

/-! ## provider.go -/

/-- The struct `Provider`. -/
structure Provider where
  domain : String
  owner : String
  ipVersion : IPVersion
  ipv6Suffix : Prefix
  serverURL : String
  apiKey : String
  serverID : String
  ttl : Nat
  deriving DecidableEq, Repr

/-- The zero value of `extraSettings`. -/
def extraSettings.zero : extraSettings :=
  { ServerURL := "", APIKey := "", ServerID := "", TTL := 0 }

/-- The function `validateSettings`; `none` is a nil error. -/
def validateSettings (deps : Deps) (domain serverURL apiKey : String) : Option GoError :=
  match deps.CheckDomain domain with
  | some err =>
    some (.wrap2
      (GoError.Error deps (.sentinel .ErrDomainNotValid) ++ ": " ++ GoError.Error deps err)
      (.sentinel .ErrDomainNotValid) err)
  | none =>
    if serverURL = "" then
      some (.wrap1 (GoError.Error deps (.sentinel .ErrURLNotSet)) (.sentinel .ErrURLNotSet))
    else if apiKey = "" then
      some (.wrap1 (GoError.Error deps (.sentinel .ErrAPIKeyNotSet)) (.sentinel .ErrAPIKeyNotSet))
    else
      match deps.urlParse serverURL with
      | some msg => some (.wrap1 ("server URL is not valid: " ++ msg) (.leaf msg))
      | none => none

/-- The function `New`: `.error err` is `(nil, err)`, `.ok p` is `(&p, nil)`. -/
def New (deps : Deps) (data : RawMessage) (domain owner : String)
    (ipVersion : IPVersion) (ipv6Suffix : Prefix) : Except GoError Provider :=
  match jsonUnmarshal data extraSettings.zero with
  | (_, some failure) => .error (.leaf (deps.jsonErrorText failure))
  | (decoded, none) =>
    let withID :=
      if decoded.ServerID = "" then { decoded with ServerID := "localhost" } else decoded
    let settings := if withID.TTL = 0 then { withID with TTL := 300 } else withID
    match validateSettings deps domain settings.ServerURL settings.APIKey with
    | some err =>
      .error (.wrap1 ("validating provider specific settings: " ++ GoError.Error deps err) err)
    | none =>
      .ok
        { domain := domain
          owner := owner
          ipVersion := ipVersion
          ipv6Suffix := ipv6Suffix
          serverURL := settings.ServerURL
          apiKey := settings.APIKey
          serverID := settings.ServerID
          ttl := settings.TTL }

/-- The method `Domain`. -/
def Provider.Domain (p : Provider) : String := p.domain

/-- The method `Owner`. -/
def Provider.Owner (p : Provider) : String := p.owner

/-- The method `IPv6Suffix`. -/
def Provider.IPv6Suffix (p : Provider) : Prefix := p.ipv6Suffix

/-- The method `Proxied`. -/
def Provider.Proxied (_p : Provider) : Bool := false

/-- The method `BuildDomainName`. -/
def Provider.BuildDomainName (deps : Deps) (p : Provider) : String :=
  deps.BuildDomainName p.owner p.domain

/-- The fields of `models.HTMLRow` that `HTML` sets; the others keep their zero
value. -/
structure HTMLRow where
  Domain : String
  Owner : String
  Provider : String
  IPVersion : String
  deriving DecidableEq, Repr

/-- The method `HTML`. -/
def Provider.HTML (deps : Deps) (p : Provider) : HTMLRow :=
  { Domain := "<a href=\"http://" ++ p.BuildDomainName deps ++ "\">"
      ++ p.BuildDomainName deps ++ "</a>"
    Owner := p.Owner
    Provider := "<a href=\"https://doc.powerdns.com/authoritative/http-api/\">PowerDNS</a>"
    IPVersion := deps.ipVersionString p.ipVersion }

/-- The method `setHeaders`. -/
def Provider.setHeaders (deps : Deps) (p : Provider) (request : Request) : Request :=
  let request := { request with header := deps.SetUserAgent request.header }
  let request := { request with header := deps.SetContentType request.header "application/json" }
  { request with header := request.header.Set "X-API-Key" p.apiKey }

/-- The method `IPVersion`. -/
def Provider.IPVersion (p : Provider) : IPVersion := p.ipVersion

/-- The method `String`. -/
def Provider.String (deps : Deps) (p : Provider) : String :=
  deps.ToString p.domain p.owner deps.PowerDNS p.ipVersion

/-- The local type `record` of `Update`. -/
structure record where
  Content : String
  Disabled : Bool
  deriving DecidableEq, Repr

/-- The local type `rrSet` of `Update`; `Type_` is its field `Type`. -/
structure rrSet where
  Name : String
  Type_ : String
  TTL : Nat
  ChangeType : String
  Records : List record
  deriving DecidableEq, Repr

/-- The anonymous struct `requestData` of `Update`. -/
structure requestData where
  RRSets : List rrSet
  deriving DecidableEq, Repr

/-- JSON text of a `record`, under its field tags. -/
def record.toJSON (r : record) : JsonValue :=
  .obj [("content", .str r.Content), ("disabled", .bool r.Disabled)]

/-- JSON text of an `rrSet`, under its field tags. -/
def rrSet.toJSON (r : rrSet) : JsonValue :=
  .obj [("name", .str r.Name), ("type", .str r.Type_), ("ttl", .number (toString r.TTL)),
    ("changetype", .str r.ChangeType), ("records", .arr (r.Records.map record.toJSON))]

/-- Go `encoder.Encode(requestData)`: strings, an unsigned integer, a boolean
and slices of structs always encode, so the error is always nil. -/
def jsonEncode (d : requestData) : Except GoError JsonValue :=
  .ok (.obj [("rrsets", .arr (d.RRSets.map rrSet.toJSON))])

/-- Go `http.NewRequestWithContext` for a valid method: it fails on a nil
context and on a URL that `url.Parse` rejects, and starts with an empty header. -/
def NewRequestWithContext (deps : Deps) (ctx : Context) (method url : String)
    (body : JsonValue) : Except GoError Request :=
  match ctx with
  | .nil => .error (.leaf "net/http: nil Context")
  | .live =>
    match deps.urlParse url with
    | some msg => .error (.leaf msg)
    | none => .ok { method := method, url := url, header := fun _ => none, body := body }

/-- Go `client.Do` of the injected client: a response, or a transport error. -/
abbrev Client := Request → Except GoError Response

/-- What a call of `Update` returns, with the requests it handed to the client
in order. -/
structure UpdateResult where
  newIP : Addr
  err : Option GoError
  sent : List Request

/-- The method `Update`, with a non-nil client. Closing the response body has
no effect on what is returned and is left out. -/
def Provider.Update (deps : Deps) (p : Provider) (ctx : Context) (client : Client)
    (ip : Addr) : UpdateResult :=
  let recordType := if ip.Is6 then AAAA else A
  let recordName := deps.BuildURLQueryHostname p.owner p.domain ++ "."
  let zoneName := p.domain ++ "."
  let u := p.serverURL ++ "/api/v1/servers/" ++ p.serverID ++ "/zones/" ++ zoneName
  let data : requestData :=
    { RRSets :=
        [{ Name := recordName
           Type_ := recordType
           TTL := p.ttl
           ChangeType := "REPLACE"
           Records := [{ Content := ip.String, Disabled := false }] }] }
  match jsonEncode data with
  | .error err =>
    { newIP := .zero
      err := some (.wrap1 ("json encoding request data: " ++ GoError.Error deps err) err)
      sent := [] }
  | .ok buffer =>
    match NewRequestWithContext deps ctx MethodPatch u buffer with
    | .error err =>
      { newIP := .zero
        err := some (.wrap1 ("creating http request: " ++ GoError.Error deps err) err)
        sent := [] }
    | .ok request =>
      let request := p.setHeaders deps request
      match client request with
      | .error err => { newIP := .zero, err := some err, sent := [request] }
      | .ok response =>
        if response.StatusCode ≠ StatusNoContent then
          { newIP := .zero
            err := some (.wrap1
              (GoError.Error deps (.sentinel .ErrHTTPStatusNotValid) ++ ": "
                ++ toString response.StatusCode ++ ": "
                ++ deps.BodyToSingleLine response.Body)
              (.sentinel .ErrHTTPStatusNotValid))
            sent := [request] }
        else { newIP := ip, err := none, sent := [request] }

/-- The members under `key` of the RRsets of a request body, one entry for each
RRset in the `rrsets` list. -/
def rrsetMembers (body : JsonValue) (key : String) : List (Option JsonValue) :=
  match body.get? "rrsets" with
  | some v => v.elems.map (fun r => r.get? key)
  | none => []

/-! ## Helpers of `utils` as the spec describes them, and a sample environment -/

/-- Modelled from the spec: `utils.BuildURLQueryHostname`, whose source is not
part of this development. The spec gives the record name as `owner.domain.`
(§4.2 step 2, §6, §8: always `{owner}.{domain}.`), the name being this helper's
result followed by a dot, so the helper joins owner and domain with a dot. -/
def BuildURLQueryHostname (owner domain : String) : String := owner ++ "." ++ domain

/-- The labels of a domain, cut at every dot. -/
def splitOnDot : List Char → List (List Char)
  | [] => [[]]
  | c :: cs =>
    match splitOnDot cs with
    | [] => [[]]
    | l :: ls => if c = '.' then [] :: l :: ls else (c :: l) :: ls

/-- A well-formed label: 1 to 63 letters, digits or hyphens, no hyphen at
either end. -/
def validLabel (l : List Char) : Bool :=
  !l.isEmpty && decide (l.length ≤ 63) && l.all (fun c => c.isAlphanum || c == '-')
    && l.head? != some '-' && l.getLast? != some '-'

/-- Modelled from the spec: `utils.CheckDomain`, whose source is not part of
this development: it rejects the empty domain and malformed labels (§4.1 (a)). -/
def CheckDomain (domain : String) : Option GoError :=
  if !domain.data.isEmpty && (splitOnDot domain.data).all validLabel then none
  else some (.leaf ("domain is malformed: " ++ domain))

/-- Go `stringContainsCTLByte` of net/url. -/
def stringContainsCTLByte (s : String) : Bool :=
  s.data.any (fun c => decide (c.toNat < 32) || decide (c.toNat = 127))

/-- A sample environment on which the definitions evaluate. Its `urlParse` is
the first test of `url.Parse` only (a control character is rejected), the
helpers of `utils` follow the spec, and the texts are placeholders. -/
def sampleDeps : Deps where
  errText := fun s =>
    match s with
    | .ErrDomainNotValid => "domain is not valid"
    | .ErrURLNotSet => "url is not set"
    | .ErrAPIKeyNotSet => "API key is not set"
    | .ErrHTTPStatusNotValid => "HTTP status is not valid"
  CheckDomain := CheckDomain
  BuildURLQueryHostname := BuildURLQueryHostname
  BuildDomainName := fun owner domain => owner ++ "." ++ domain
  ToString := fun domain owner provider _ =>
    "[domain: " ++ domain ++ " | owner: " ++ owner ++ " | provider: " ++ provider ++ "]"
  BodyToSingleLine := fun body => ⟨body.data.map (fun c => if c = '\n' then ' ' else c)⟩
  SetUserAgent := fun h => h.Set "User-Agent" "DDNS-Updater"
  SetContentType := fun h contentType => h.Set "Content-Type" contentType
  PowerDNS := "powerdns"
  ipVersionString := fun v =>
    match v with
    | .IP4or6 => "ipv4 or ipv6"
    | .IP4 => "ipv4"
    | .IP6 => "ipv6"
  urlParse := fun u =>
    if stringContainsCTLByte u then some "net/url: invalid control character in URL" else none
  jsonErrorText := fun f =>
    match f with
    | .invalidText => "invalid JSON text"
    | .typeMismatch value field => "json: cannot unmarshal " ++ value ++ " into field " ++ field

/-- A provider as `New` builds it from `server_url` and `api_key` alone. -/
def sampleProvider : Provider :=
  { domain := "example.com"
    owner := "home"
    ipVersion := .IP4or6
    ipv6Suffix := { ip := .zero, bitsPlusOne := 0 }
    serverURL := "http://localhost:8081"
    apiKey := "secret"
    serverID := "localhost"
    ttl := 300 }

/-- The request `sampleProvider` sends for 192.0.2.1 in the sample environment. -/
def sampleRequest : Request :=
  sampleProvider.setHeaders sampleDeps
    { method := "PATCH"
      url := "http://localhost:8081/api/v1/servers/localhost/zones/example.com."
      header := fun _ => none
      body := .obj [("rrsets", .arr [.obj [("name", .str "home.example.com."),
        ("type", .str "A"), ("ttl", .number "300"), ("changetype", .str "REPLACE"),
        ("records", .arr [.obj [("content", .str "192.0.2.1"), ("disabled", .bool false)]])]])] }

/-! ## Theorems -/

/-- How `Update` ends once the request has been created. -/
theorem Update_of_request (deps : Deps) (p : Provider) (ctx : Context) (client : Client)
    (ip : Addr) (req : Request)
    (hsent : (p.Update deps ctx client ip).sent = [req]) :
    p.Update deps ctx client ip =
      match client req with
      | .error err => { newIP := .zero, err := some err, sent := [req] }
      | .ok response =>
        if response.StatusCode ≠ StatusNoContent then
          { newIP := .zero
            err := some (.wrap1
              (GoError.Error deps (.sentinel .ErrHTTPStatusNotValid) ++ ": "
                ++ toString response.StatusCode ++ ": "
                ++ deps.BodyToSingleLine response.Body)
              (.sentinel .ErrHTTPStatusNotValid))
            sent := [req] }
        else { newIP := ip, err := none, sent := [req] } := by
  unfold Provider.Update at hsent ⊢
  simp only [jsonEncode] at hsent ⊢
  split at hsent
  · simp at hsent
  · rename_i request hreq
    have hr : p.setHeaders deps request = req := by
      revert hsent
      cases client (p.setHeaders deps request) with
      | error e => intro h; simpa using h
      | ok r =>
        intro h
        by_cases hs : r.StatusCode = StatusNoContent <;> simpa [hs] using h
    simp only [hr]

/-- When the context is not nil and the URL parses, `Update` hands the client
one request: the created one with the headers set. -/
theorem Update_sends (deps : Deps) (p : Provider) (ctx : Context) (client : Client) (ip : Addr)
    (hctx : ctx = .live)
    (hurl : deps.urlParse
      (p.serverURL ++ "/api/v1/servers/" ++ p.serverID ++ "/zones/" ++ (p.domain ++ ".")) = none) :
    (p.Update deps ctx client ip).sent =
      [p.setHeaders deps
        { method := "PATCH"
          url := p.serverURL ++ "/api/v1/servers/" ++ p.serverID ++ "/zones/" ++ (p.domain ++ ".")
          header := fun _ => none
          body := .obj [("rrsets", .arr [.obj [
            ("name", .str (deps.BuildURLQueryHostname p.owner p.domain ++ ".")),
            ("type", .str (if ip.Is6 then "AAAA" else "A")),
            ("ttl", .number (toString p.ttl)),
            ("changetype", .str "REPLACE"),
            ("records", .arr [.obj [("content", .str ip.String),
              ("disabled", .bool false)]])]])] }] := by
  subst hctx
  simp only [Provider.Update, jsonEncode, NewRequestWithContext, hurl, MethodPatch,
    List.map, rrSet.toJSON, record.toJSON, A, AAAA]
  cases client _ with
  | error e => rfl
  | ok r => by_cases hs : r.StatusCode = StatusNoContent <;> simp [hs]

/-- Every request `Update` hands to the client is the created one with the
headers set; there is at most one. -/
theorem Update_sent_shape (deps : Deps) (p : Provider) (ctx : Context) (client : Client)
    (ip : Addr) (req : Request) (hsent : (p.Update deps ctx client ip).sent = [req]) :
    req = p.setHeaders deps
        { method := "PATCH"
          url := p.serverURL ++ "/api/v1/servers/" ++ p.serverID ++ "/zones/" ++ (p.domain ++ ".")
          header := fun _ => none
          body := .obj [("rrsets", .arr [.obj [
            ("name", .str (deps.BuildURLQueryHostname p.owner p.domain ++ ".")),
            ("type", .str (if ip.Is6 then "AAAA" else "A")),
            ("ttl", .number (toString p.ttl)),
            ("changetype", .str "REPLACE"),
            ("records", .arr [.obj [("content", .str ip.String),
              ("disabled", .bool false)]])]])] } := by
  cases ctx with
  | nil => simp [Provider.Update, jsonEncode, NewRequestWithContext] at hsent
  | live =>
    cases hurl : deps.urlParse
        (p.serverURL ++ "/api/v1/servers/" ++ p.serverID ++ "/zones/" ++ (p.domain ++ ".")) with
    | some msg => simp [Provider.Update, jsonEncode, NewRequestWithContext, hurl] at hsent
    | none =>
      have h := Update_sends deps p .live client ip rfl hurl
      rw [hsent] at h
      simpa using h

/-- A request that `Update` handed to the client is the only one it handed. -/
theorem Update_sent_of_mem (deps : Deps) (p : Provider) (ctx : Context) (client : Client)
    (ip : Addr) (req : Request) (hmem : req ∈ (p.Update deps ctx client ip).sent) :
    (p.Update deps ctx client ip).sent = [req] := by
  cases ctx with
  | nil => simp [Provider.Update, jsonEncode, NewRequestWithContext] at hmem
  | live =>
    cases hurl : deps.urlParse
        (p.serverURL ++ "/api/v1/servers/" ++ p.serverID ++ "/zones/" ++ (p.domain ++ ".")) with
    | some msg => simp [Provider.Update, jsonEncode, NewRequestWithContext, hurl] at hmem
    | none =>
      have h := Update_sends deps p .live client ip rfl hurl
      rw [h] at hmem ⊢
      rw [List.mem_singleton] at hmem
      rw [hmem]

/-- The decimal text of a status code occurs in the text built around it. -/
theorem status_text_infix (a b : String) (code : Int) :
    (toString code).data <:+: (a ++ ": " ++ toString code ++ ": " ++ b).data := by
  refine ⟨(a ++ ": ").data, (": " ++ b).data, ?_⟩
  simp [String.data_append, List.append_assoc]

/-- C1: for every provider, IP and response that the transport hands back
without a transport error, status 204 makes `Update` return the input IP and a
nil error, and any other status makes it return the zero address and an error
that wraps `ErrHTTPStatusNotValid` and whose text contains the decimal status
code; the error is nil exactly when the status is 204. -/
theorem Update_status (deps : Deps) (p : Provider) (ctx : Context) (client : Client)
    (ip : Addr) (req : Request) (resp : Response)
    (hmem : req ∈ (p.Update deps ctx client ip).sent)
    (hresp : client req = .ok resp) :
    (resp.StatusCode = 204 →
      (p.Update deps ctx client ip).newIP = ip ∧ (p.Update deps ctx client ip).err = none) ∧
    (resp.StatusCode ≠ 204 →
      (p.Update deps ctx client ip).newIP = Addr.zero ∧
      ∃ e, (p.Update deps ctx client ip).err = some e ∧
        e.Is .ErrHTTPStatusNotValid = true ∧
        (toString resp.StatusCode).data <:+: (e.Error deps).data) ∧
    ((p.Update deps ctx client ip).err = none ↔ resp.StatusCode = 204) := by
  have hsent := Update_sent_of_mem deps p ctx client ip req hmem
  rw [Update_of_request deps p ctx client ip req hsent, hresp]
  by_cases hs : resp.StatusCode = 204
  · simp [hs, StatusNoContent]
  · simp only [StatusNoContent, ne_eq, hs, not_false_eq_true, ite_true, false_implies,
      true_implies, true_and, iff_false]
    refine ⟨⟨_, rfl, ?_, ?_⟩, ?_⟩
    · simp [GoError.Is]
    · exact status_text_infix _ _ _
    · simp

/-- C1 at a sample provider: the transport answers 500 to the request sent. -/
theorem Update_status_witness :
    sampleRequest ∈ (sampleProvider.Update sampleDeps .live (fun _ => .ok ⟨500, "no"⟩)
      (.v4 0xC0000201)).sent ∧
    (sampleProvider.Update sampleDeps .live (fun _ => .ok ⟨500, "no"⟩) (.v4 0xC0000201)).newIP
      = Addr.zero ∧
    (sampleProvider.Update sampleDeps .live (fun _ => .ok ⟨500, "no"⟩) (.v4 0xC0000201)).err.map
      (GoError.Error sampleDeps) = some "HTTP status is not valid: 500: no" ∧
    ((sampleProvider.Update sampleDeps .live (fun _ => .ok ⟨500, "no"⟩) (.v4 0xC0000201)).err
      = none ↔ (500 : Int) = 204) :=
  ⟨List.Mem.head _,
    ((Update_status sampleDeps sampleProvider .live (fun _ => .ok ⟨500, "no"⟩) (.v4 0xC0000201)
      sampleRequest ⟨500, "no"⟩ (List.Mem.head _) rfl).2.1 (by decide)).1,
    by decide,
    (Update_status sampleDeps sampleProvider .live (fun _ => .ok ⟨500, "no"⟩) (.v4 0xC0000201)
      sampleRequest ⟨500, "no"⟩ (List.Mem.head _) rfl).2.2⟩

/-- C8: when the client returns a transport error for the request, `Update`
returns the zero address and that very error, unwrapped, so the result is an
API-status error only if the transport error itself is one, and the client has
been called exactly once. -/
theorem Update_transport_error (deps : Deps) (p : Provider) (ctx : Context) (client : Client)
    (ip : Addr) (req : Request) (e : GoError)
    (hmem : req ∈ (p.Update deps ctx client ip).sent)
    (herr : client req = .error e) :
    (p.Update deps ctx client ip).newIP = Addr.zero ∧
    (p.Update deps ctx client ip).err = some e ∧
    (e.Is .ErrHTTPStatusNotValid = false →
      ∀ e1, (p.Update deps ctx client ip).err = some e1 →
        e1.Is .ErrHTTPStatusNotValid = false) ∧
    (p.Update deps ctx client ip).sent = [req] ∧
    (p.Update deps ctx client ip).sent.length = 1 := by
  have hsent := Update_sent_of_mem deps p ctx client ip req hmem
  rw [Update_of_request deps p ctx client ip req hsent, herr]
  refine ⟨rfl, rfl, ?_, rfl, rfl⟩
  intro h e1 he1
  simp only [Option.some.injEq] at he1
  rw [← he1]
  exact h

/-- C8 at a sample provider: the transport reports a cancelled context. -/
theorem Update_transport_error_witness :
    sampleRequest ∈ (sampleProvider.Update sampleDeps .live
      (fun _ => .error (.leaf "context canceled")) (.v4 0xC0000201)).sent ∧
    (sampleProvider.Update sampleDeps .live (fun _ => .error (.leaf "context canceled"))
      (.v4 0xC0000201)).err = some (.leaf "context canceled") ∧
    (sampleProvider.Update sampleDeps .live (fun _ => .error (.leaf "context canceled"))
      (.v4 0xC0000201)).sent.length = 1 :=
  ⟨List.Mem.head _,
    (Update_transport_error sampleDeps sampleProvider .live
      (fun _ => .error (.leaf "context canceled")) (.v4 0xC0000201) sampleRequest
      (.leaf "context canceled") (List.Mem.head _) rfl).2.1,
    (Update_transport_error sampleDeps sampleProvider .live
      (fun _ => .error (.leaf "context canceled")) (.v4 0xC0000201) sampleRequest
      (.leaf "context canceled") (List.Mem.head _) rfl).2.2.2.2⟩

/-- C2: the single RRset of the request `Update` emits is named
`BuildURLQueryHostname(owner, domain) + "."`, which with the helper as the spec
describes it is `owner + "." + domain + "."`, for every owner, domain and IP. -/
theorem Update_recordName (deps : Deps) (p : Provider) (ctx : Context) (client : Client)
    (ip : Addr)
    (hhelper : deps.BuildURLQueryHostname = BuildURLQueryHostname)
    (hctx : ctx = .live)
    (hurl : deps.urlParse
      (p.serverURL ++ "/api/v1/servers/" ++ p.serverID ++ "/zones/" ++ (p.domain ++ ".")) = none) :
    ∃ req, (p.Update deps ctx client ip).sent = [req] ∧
      rrsetMembers req.body "name"
        = [some (.str (deps.BuildURLQueryHostname p.owner p.domain ++ "."))] ∧
      rrsetMembers req.body "name" = [some (.str (p.owner ++ "." ++ p.domain ++ "."))] := by
  refine ⟨_, Update_sends deps p ctx client ip hctx hurl, ?_, ?_⟩
  · simp [rrsetMembers, Provider.setHeaders, JsonValue.get?, JsonValue.elems]
  · simp [rrsetMembers, Provider.setHeaders, JsonValue.get?, JsonValue.elems, hhelper,
      BuildURLQueryHostname]

/-- C2 at a sample provider with owner `home` and domain `example.com`. -/
theorem Update_recordName_witness :
    sampleDeps.BuildURLQueryHostname = BuildURLQueryHostname ∧
    Context.live = Context.live ∧
    sampleDeps.urlParse (sampleProvider.serverURL ++ "/api/v1/servers/"
      ++ sampleProvider.serverID ++ "/zones/" ++ (sampleProvider.domain ++ ".")) = none ∧
    ∃ req, (sampleProvider.Update sampleDeps .live (fun _ => .ok ⟨204, ""⟩)
        (.v4 0xC0000201)).sent = [req] ∧
      rrsetMembers req.body "name"
        = [some (.str (sampleDeps.BuildURLQueryHostname sampleProvider.owner
            sampleProvider.domain ++ "."))] ∧
      rrsetMembers req.body "name"
        = [some (.str (sampleProvider.owner ++ "." ++ sampleProvider.domain ++ "."))] :=
  ⟨rfl, rfl, rfl,
    Update_recordName sampleDeps sampleProvider .live (fun _ => .ok ⟨204, ""⟩) (.v4 0xC0000201)
      rfl rfl rfl⟩

/-- C3: the record type `Update` emits is `A` for an IPv4 address and `AAAA`
for an IPv6 address, and any provider, whatever its `ipVersion` and other
fields, emits the same type for the same IP. -/
theorem Update_recordType (deps : Deps) (p : Provider) (ctx : Context) (client : Client)
    (ip : Addr)
    (hctx : ctx = .live)
    (hurl : deps.urlParse
      (p.serverURL ++ "/api/v1/servers/" ++ p.serverID ++ "/zones/" ++ (p.domain ++ ".")) = none) :
    ∃ req, (p.Update deps ctx client ip).sent = [req] ∧
      (ip.Is4 = true → rrsetMembers req.body "type" = [some (.str "A")]) ∧
      (ip.Is6 = true → rrsetMembers req.body "type" = [some (.str "AAAA")]) ∧
      rrsetMembers req.body "type" = [some (.str (if ip.Is6 then "AAAA" else "A"))] ∧
      ∀ (q : Provider) (ctx1 : Context) (client1 : Client) (req1 : Request),
        (q.Update deps ctx1 client1 ip).sent = [req1] →
        rrsetMembers req1.body "type" = rrsetMembers req.body "type" := by
  have key : ∀ (q : Provider),
      rrsetMembers (q.setHeaders deps
        { method := "PATCH"
          url := q.serverURL ++ "/api/v1/servers/" ++ q.serverID ++ "/zones/" ++ (q.domain ++ ".")
          header := fun _ => none
          body := .obj [("rrsets", .arr [.obj [
            ("name", .str (deps.BuildURLQueryHostname q.owner q.domain ++ ".")),
            ("type", .str (if ip.Is6 then "AAAA" else "A")),
            ("ttl", .number (toString q.ttl)),
            ("changetype", .str "REPLACE"),
            ("records", .arr [.obj [("content", .str ip.String),
              ("disabled", .bool false)]])]])] }).body "type"
        = [some (.str (if ip.Is6 then "AAAA" else "A"))] := by
    intro q
    simp [rrsetMembers, Provider.setHeaders, JsonValue.get?, JsonValue.elems]
  refine ⟨_, Update_sends deps p ctx client ip hctx hurl, ?_, ?_, key p, ?_⟩
  · intro h4
    rw [key p]
    cases ip <;> simp_all [Addr.Is4, Addr.Is6]
  · intro h6
    rw [key p, h6]
    rfl
  · intro q ctx1 client1 req1 h1
    rw [Update_sent_shape deps q ctx1 client1 ip req1 h1, key q, key p]

/-- C3 at a sample provider and an IPv6 address. -/
theorem Update_recordType_witness :
    sampleDeps.urlParse (sampleProvider.serverURL ++ "/api/v1/servers/"
      ++ sampleProvider.serverID ++ "/zones/" ++ (sampleProvider.domain ++ ".")) = none ∧
    ∃ req, (sampleProvider.Update sampleDeps .live (fun _ => .ok ⟨204, ""⟩)
        (.v6 0x20010db8000000000000000000000001 "")).sent = [req] ∧
      rrsetMembers req.body "type" = [some (.str "AAAA")] :=
  ⟨rfl,
    (Update_recordType sampleDeps sampleProvider .live (fun _ => .ok ⟨204, ""⟩)
      (.v6 0x20010db8000000000000000000000001 "") rfl rfl).imp
      (fun _ h => ⟨h.1, h.2.2.1 rfl⟩)⟩

/-- C4: the request `Update` builds is a PATCH to
`serverURL + "/api/v1/servers/" + serverID + "/zones/" + domain + "."` whose
body has an `rrsets` list of one RRset with the provider's ttl, changetype
`REPLACE`, the selected type, and a `records` list of one record with the text
of the IP as content and `disabled` false. -/
theorem Update_request (deps : Deps) (p : Provider) (ctx : Context) (client : Client)
    (ip : Addr)
    (hctx : ctx = .live)
    (hurl : deps.urlParse
      (p.serverURL ++ "/api/v1/servers/" ++ p.serverID ++ "/zones/" ++ (p.domain ++ ".")) = none) :
    ∃ header, (p.Update deps ctx client ip).sent =
      [{ method := "PATCH"
         url := p.serverURL ++ "/api/v1/servers/" ++ p.serverID ++ "/zones/" ++ p.domain ++ "."
         header := header
         body := .obj [("rrsets", .arr [.obj [
           ("name", .str (deps.BuildURLQueryHostname p.owner p.domain ++ ".")),
           ("type", .str (if ip.Is6 then "AAAA" else "A")),
           ("ttl", .number (toString p.ttl)),
           ("changetype", .str "REPLACE"),
           ("records", .arr [.obj [("content", .str ip.String),
             ("disabled", .bool false)]])]])] }] := by
  refine ⟨(deps.SetContentType (deps.SetUserAgent (fun _ => none)) "application/json").Set
    "X-API-Key" p.apiKey, ?_⟩
  rw [Update_sends deps p ctx client ip hctx hurl]
  simp only [Provider.setHeaders, String.append_assoc]

/-- C4 at a sample provider: the request for 192.0.2.1. -/
theorem Update_request_witness :
    sampleDeps.urlParse (sampleProvider.serverURL ++ "/api/v1/servers/"
      ++ sampleProvider.serverID ++ "/zones/" ++ (sampleProvider.domain ++ ".")) = none ∧
    ∃ header, (sampleProvider.Update sampleDeps .live (fun _ => .ok ⟨204, ""⟩)
        (.v4 0xC0000201)).sent =
      [{ method := "PATCH"
         url := "http://localhost:8081/api/v1/servers/localhost/zones/example.com."
         header := header
         body := .obj [("rrsets", .arr [.obj [
           ("name", .str "home.example.com."),
           ("type", .str "A"),
           ("ttl", .number "300"),
           ("changetype", .str "REPLACE"),
           ("records", .arr [.obj [("content", .str "192.0.2.1"),
             ("disabled", .bool false)]])]])] }] :=
  ⟨rfl,
    Update_request sampleDeps sampleProvider .live (fun _ => .ok ⟨204, ""⟩) (.v4 0xC0000201)
      rfl rfl⟩

/-- When `validateSettings` returns nil, every check has passed. -/
theorem validateSettings_none (deps : Deps) (domain serverURL apiKey : String)
    (h : validateSettings deps domain serverURL apiKey = none) :
    deps.CheckDomain domain = none ∧ serverURL ≠ "" ∧ apiKey ≠ "" ∧
      deps.urlParse serverURL = none := by
  unfold validateSettings at h
  cases hd : deps.CheckDomain domain with
  | some e => simp [hd] at h
  | none =>
    by_cases hu : serverURL = ""
    · simp [hd, hu] at h
    · by_cases hk : apiKey = ""
      · simp [hd, hu, hk] at h
      · cases hp : deps.urlParse serverURL with
        | some m => simp [hd, hu, hk, hp] at h
        | none => exact ⟨rfl, hu, hk, rfl⟩

/-- What `New` has done when it returns a provider. -/
theorem New_ok (deps : Deps) (data : RawMessage) (domain owner : String)
    (ipVersion : IPVersion) (ipv6Suffix : Prefix) (p : Provider)
    (h : New deps data domain owner ipVersion ipv6Suffix = .ok p) :
    ∃ s, jsonUnmarshal data extraSettings.zero = (s, none) ∧
      validateSettings deps domain s.ServerURL s.APIKey = none ∧
      p = { domain := domain
            owner := owner
            ipVersion := ipVersion
            ipv6Suffix := ipv6Suffix
            serverURL := s.ServerURL
            apiKey := s.APIKey
            serverID := if s.ServerID = "" then "localhost" else s.ServerID
            ttl := if s.TTL = 0 then 300 else s.TTL } := by
  unfold New at h
  rcases hj : jsonUnmarshal data extraSettings.zero with ⟨s, failure⟩
  rw [hj] at h
  cases failure with
  | some f => simp at h
  | none =>
    refine ⟨s, rfl, ?_⟩
    have hurl : (if (if s.ServerID = "" then { s with ServerID := "localhost" } else s).TTL = 0
        then { (if s.ServerID = "" then { s with ServerID := "localhost" } else s) with
          TTL := 300 }
        else (if s.ServerID = "" then { s with ServerID := "localhost" } else s)).ServerURL
        = s.ServerURL := by
      split <;> split <;> rfl
    have hkey : (if (if s.ServerID = "" then { s with ServerID := "localhost" } else s).TTL = 0
        then { (if s.ServerID = "" then { s with ServerID := "localhost" } else s) with
          TTL := 300 }
        else (if s.ServerID = "" then { s with ServerID := "localhost" } else s)).APIKey
        = s.APIKey := by
      split <;> split <;> rfl
    have hid : (if (if s.ServerID = "" then { s with ServerID := "localhost" } else s).TTL = 0
        then { (if s.ServerID = "" then { s with ServerID := "localhost" } else s) with
          TTL := 300 }
        else (if s.ServerID = "" then { s with ServerID := "localhost" } else s)).ServerID
        = if s.ServerID = "" then "localhost" else s.ServerID := by
      by_cases h1 : s.ServerID = "" <;> by_cases h2 : s.TTL = 0 <;> simp [h1, h2]
    have httl : (if (if s.ServerID = "" then { s with ServerID := "localhost" } else s).TTL = 0
        then { (if s.ServerID = "" then { s with ServerID := "localhost" } else s) with
          TTL := 300 }
        else (if s.ServerID = "" then { s with ServerID := "localhost" } else s)).TTL
        = if s.TTL = 0 then 300 else s.TTL := by
      by_cases h1 : s.ServerID = "" <;> by_cases h2 : s.TTL = 0 <;> simp [h1, h2]
    simp only [hurl, hkey, hid, httl] at h
    cases hv : validateSettings deps domain s.ServerURL s.APIKey with
    | some e => simp [hv] at h
    | none =>
      simp only [hv, Except.ok.injEq] at h
      exact ⟨rfl, h.symm⟩

/-- What `New` returns when the payload decodes and every check passes. -/
theorem New_of_valid (deps : Deps) (data : RawMessage) (s : extraSettings)
    (domain owner : String) (ipVersion : IPVersion) (ipv6Suffix : Prefix)
    (hdec : jsonUnmarshal data extraSettings.zero = (s, none))
    (hval : validateSettings deps domain s.ServerURL s.APIKey = none) :
    New deps data domain owner ipVersion ipv6Suffix = .ok
      { domain := domain
        owner := owner
        ipVersion := ipVersion
        ipv6Suffix := ipv6Suffix
        serverURL := s.ServerURL
        apiKey := s.APIKey
        serverID := if s.ServerID = "" then "localhost" else s.ServerID
        ttl := if s.TTL = 0 then 300 else s.TTL } := by
  unfold New
  rw [hdec]
  by_cases h1 : s.ServerID = "" <;> by_cases h2 : s.TTL = 0 <;> simp [h1, h2, hval]

/-- Storing into another field leaves `ServerID` as it is. -/
theorem storeField_ServerID (s : extraSettings) (f : Field) (v : JsonValue)
    (h : f ≠ .ServerID) : (storeField s f v).1.ServerID = s.ServerID := by
  cases f <;> cases v <;> simp_all [storeField]
  split <;> rfl

/-- Storing into another field leaves `TTL` as it is. -/
theorem storeField_TTL (s : extraSettings) (f : Field) (v : JsonValue)
    (h : f ≠ .TTL) : (storeField s f v).1.TTL = s.TTL := by
  cases f <;> cases v <;> simp_all [storeField]

/-- A parsed `uint32` is below `2 ^ 32`. -/
theorem parseUint32_lt (literal : String) (n : Nat) (h : parseUint32 literal = some n) :
    n < 2 ^ 32 := by
  unfold parseUint32 at h
  split at h
  · simp only at h
    split at h
    · simp only [Option.some.injEq] at h
      omega
    · simp at h
  · simp at h

/-- Storing a value keeps `TTL` below `2 ^ 32`. -/
theorem storeField_TTL_lt (s : extraSettings) (f : Field) (v : JsonValue)
    (h : s.TTL < 2 ^ 32) : (storeField s f v).1.TTL < 2 ^ 32 := by
  cases f <;> cases v <;> simp_all [storeField]
  rename_i literal
  cases hp : parseUint32 literal with
  | none => simpa using h
  | some n => simpa using parseUint32_lt literal n hp

/-- Members none of whose keys decodes into `server_id` leave `ServerID` as it is. -/
theorem decodeMembers_ServerID (members : List (String × JsonValue))
    (acc : extraSettings × Option JsonFailure)
    (h : ∀ kv ∈ members, lookupField kv.1 ≠ some .ServerID) :
    (decodeMembers members acc).1.ServerID = acc.1.ServerID := by
  induction members generalizing acc with
  | nil => rfl
  | cons kv rest ih =>
    obtain ⟨key, v⟩ := kv
    obtain ⟨s, saved⟩ := acc
    have hrest : ∀ kv ∈ rest, lookupField kv.1 ≠ some .ServerID :=
      fun kv hkv => h kv (List.mem_cons_of_mem _ hkv)
    have hkey : lookupField key ≠ some .ServerID := h (key, v) (List.mem_cons_self _ _)
    unfold decodeMembers
    cases hl : lookupField key with
    | none => simpa using ih (s, saved) hrest
    | some f =>
      have hf : f ≠ .ServerID := fun hf => hkey (by rw [hl, hf])
      simp only []
      rw [ih _ hrest]
      exact storeField_ServerID s f v hf

/-- Members none of whose keys decodes into `ttl` leave `TTL` as it is. -/
theorem decodeMembers_TTL (members : List (String × JsonValue))
    (acc : extraSettings × Option JsonFailure)
    (h : ∀ kv ∈ members, lookupField kv.1 ≠ some .TTL) :
    (decodeMembers members acc).1.TTL = acc.1.TTL := by
  induction members generalizing acc with
  | nil => rfl
  | cons kv rest ih =>
    obtain ⟨key, v⟩ := kv
    obtain ⟨s, saved⟩ := acc
    have hrest : ∀ kv ∈ rest, lookupField kv.1 ≠ some .TTL :=
      fun kv hkv => h kv (List.mem_cons_of_mem _ hkv)
    have hkey : lookupField key ≠ some .TTL := h (key, v) (List.mem_cons_self _ _)
    unfold decodeMembers
    cases hl : lookupField key with
    | none => simpa using ih (s, saved) hrest
    | some f =>
      have hf : f ≠ .TTL := fun hf => hkey (by rw [hl, hf])
      simp only []
      rw [ih _ hrest]
      exact storeField_TTL s f v hf

/-- Decoding members keeps `TTL` below `2 ^ 32`. -/
theorem decodeMembers_TTL_lt (members : List (String × JsonValue))
    (acc : extraSettings × Option JsonFailure) (h : acc.1.TTL < 2 ^ 32) :
    (decodeMembers members acc).1.TTL < 2 ^ 32 := by
  induction members generalizing acc with
  | nil => exact h
  | cons kv rest ih =>
    obtain ⟨key, v⟩ := kv
    obtain ⟨s, saved⟩ := acc
    unfold decodeMembers
    cases hl : lookupField key with
    | none => simpa using ih (s, saved) h
    | some f =>
      simp only []
      exact ih _ (storeField_TTL_lt s f v h)

/-- The decoded `TTL` fits a `uint32`. -/
theorem jsonUnmarshal_TTL_lt (data : RawMessage) :
    (jsonUnmarshal data extraSettings.zero).1.TTL < 2 ^ 32 := by
  unfold jsonUnmarshal
  split
  · simp [extraSettings.zero]
  · simp [extraSettings.zero]
  · exact decodeMembers_TTL_lt _ _ (by simp [extraSettings.zero])
  · simp [extraSettings.zero]

/-- Decoding a list of members is decoding its first part, then the rest. -/
theorem decodeMembers_append (earlier rest : List (String × JsonValue))
    (acc : extraSettings × Option JsonFailure) :
    decodeMembers (earlier ++ rest) acc = decodeMembers rest (decodeMembers earlier acc) := by
  induction earlier generalizing acc with
  | nil => rfl
  | cons kv more ih =>
    obtain ⟨key, v⟩ := kv
    obtain ⟨s, saved⟩ := acc
    simp only [List.cons_append, decodeMembers]
    cases lookupField key with
    | none => exact ih _
    | some f => exact ih _

/-- A saved failure stays to the end of the decoding. -/
theorem decodeMembers_saved (members : List (String × JsonValue)) (s : extraSettings)
    (failure : JsonFailure) : (decodeMembers members (s, some failure)).2 = some failure := by
  induction members generalizing s with
  | nil => rfl
  | cons kv rest ih =>
    obtain ⟨key, v⟩ := kv
    simp only [decodeMembers]
    cases lookupField key with
    | none => exact ih s
    | some f => exact ih _

/-- Storing `null` changes nothing. -/
theorem storeField_null (s : extraSettings) (f : Field) : storeField s f .null = (s, none) := by
  cases f <;> rfl

/-- Members whose values for `server_id` are all `null` leave `ServerID` as it is. -/
theorem decodeMembers_ServerID_null (members : List (String × JsonValue))
    (acc : extraSettings × Option JsonFailure)
    (h : ∀ kv ∈ members, lookupField kv.1 = some .ServerID → kv.2 = .null) :
    (decodeMembers members acc).1.ServerID = acc.1.ServerID := by
  induction members generalizing acc with
  | nil => rfl
  | cons kv rest ih =>
    obtain ⟨key, v⟩ := kv
    obtain ⟨s, saved⟩ := acc
    have hrest : ∀ kv ∈ rest, lookupField kv.1 = some .ServerID → kv.2 = .null :=
      fun kv hkv => h kv (List.mem_cons_of_mem _ hkv)
    have hkey : lookupField key = some .ServerID → v = .null :=
      h (key, v) (List.mem_cons_self _ _)
    unfold decodeMembers
    cases hl : lookupField key with
    | none => simpa using ih (s, saved) hrest
    | some f =>
      simp only []
      rw [ih _ hrest]
      by_cases hf : f = .ServerID
      · rw [hkey (by rw [hl, hf]), storeField_null]
      · exact storeField_ServerID s f v hf

/-- Members whose values for `ttl` are all `null` leave `TTL` as it is. -/
theorem decodeMembers_TTL_null (members : List (String × JsonValue))
    (acc : extraSettings × Option JsonFailure)
    (h : ∀ kv ∈ members, lookupField kv.1 = some .TTL → kv.2 = .null) :
    (decodeMembers members acc).1.TTL = acc.1.TTL := by
  induction members generalizing acc with
  | nil => rfl
  | cons kv rest ih =>
    obtain ⟨key, v⟩ := kv
    obtain ⟨s, saved⟩ := acc
    have hrest : ∀ kv ∈ rest, lookupField kv.1 = some .TTL → kv.2 = .null :=
      fun kv hkv => h kv (List.mem_cons_of_mem _ hkv)
    have hkey : lookupField key = some .TTL → v = .null :=
      h (key, v) (List.mem_cons_self _ _)
    unfold decodeMembers
    cases hl : lookupField key with
    | none => simpa using ih (s, saved) hrest
    | some f =>
      simp only []
      rw [ih _ hrest]
      by_cases hf : f = .TTL
      · rw [hkey (by rw [hl, hf]), storeField_null]
      · exact storeField_TTL s f v hf

/-- A digit character is a digit and stands for its value. -/
theorem digitChar_value : ∀ d, d < 10 →
    (Nat.digitChar d).isDigit = true ∧ (Nat.digitChar d).toNat - 48 = d := by
  decide

/-- The characters `Nat.toDigitsCore` puts in front of the accumulator are
digits that read back as the number. -/
theorem toDigitsCore_value (fuel : Nat) : ∀ (n : Nat) (ds : List Char), n < fuel →
    ∃ l, Nat.toDigitsCore 10 fuel n ds = l ++ ds ∧ l ≠ [] ∧ l.all Char.isDigit = true ∧
      l.foldl (fun acc c => 10 * acc + (c.toNat - 48)) 0 = n := by
  induction fuel with
  | zero => intro n ds h; omega
  | succ fuel ih =>
    intro n ds hn
    have hd := digitChar_value (n % 10) (Nat.mod_lt _ (by decide))
    by_cases h0 : n / 10 = 0
    · refine ⟨[Nat.digitChar (n % 10)], ?_, by simp, by simp [hd.1], ?_⟩
      · simp [Nat.toDigitsCore, h0]
      · simp only [List.foldl, hd.2]
        omega
    · have hlt : n / 10 < fuel := by omega
      obtain ⟨l, hl, _, hall, hval⟩ := ih (n / 10) (Nat.digitChar (n % 10) :: ds) hlt
      refine ⟨l ++ [Nat.digitChar (n % 10)], ?_, by simp, ?_, ?_⟩
      · simp [Nat.toDigitsCore, h0, hl]
      · simp [List.all_append, hall, hd.1]
      · rw [List.foldl_append, hval]
        simp only [List.foldl, hd.2]
        omega

/-- The decimal text of a number that fits a `uint32` parses to that number,
and the text of a larger one does not parse. -/
theorem parseUint32_toString (n : Nat) :
    parseUint32 (toString n) = if n < 2 ^ 32 then some n else none := by
  obtain ⟨l, hl, hne, hall, hval⟩ := toDigitsCore_value (n + 1) n [] (Nat.lt_succ_self n)
  have hdata : (toString n).data = l := by
    show (Nat.toDigits 10 n) = l
    rw [Nat.toDigits, hl, List.append_nil]
  unfold parseUint32
  rw [hdata]
  simp only [ne_eq, hne, not_false_eq_true, hall, and_self, ite_true, hval]

/-- Decoding a `server_id` member with a string value, followed by members that
leave `server_id` alone, ends with that string in `ServerID`. -/
theorem decodeMembers_ServerID_set (earlier later : List (String × JsonValue))
    (key x : String) (acc : extraSettings × Option JsonFailure)
    (hkey : lookupField key = some .ServerID)
    (hlater : ∀ kv ∈ later, lookupField kv.1 = some .ServerID → kv.2 = .null) :
    (decodeMembers (earlier ++ (key, .str x) :: later) acc).1.ServerID = x := by
  rw [decodeMembers_append]
  rcases decodeMembers earlier acc with ⟨s1, saved1⟩
  simp only [decodeMembers, hkey]
  rw [decodeMembers_ServerID_null later _ hlater]
  rfl

/-- Decoding a `ttl` member whose value is the decimal text of `n`, followed by
members that leave `ttl` alone, ends without failure only when `n` fits a
`uint32`, and then with `n` in `TTL`. -/
theorem decodeMembers_TTL_set (earlier later : List (String × JsonValue))
    (key : String) (n : Nat) (acc : extraSettings × Option JsonFailure)
    (hkey : lookupField key = some .TTL)
    (hlater : ∀ kv ∈ later, lookupField kv.1 = some .TTL → kv.2 = .null)
    (hok : (decodeMembers (earlier ++ (key, .number (toString n)) :: later) acc).2 = none) :
    n < 2 ^ 32 ∧
      (decodeMembers (earlier ++ (key, .number (toString n)) :: later) acc).1.TTL = n := by
  rw [decodeMembers_append] at hok ⊢
  generalize decodeMembers earlier acc = acc1 at hok ⊢
  obtain ⟨s1, saved1⟩ := acc1
  simp only [decodeMembers, hkey, storeField, parseUint32_toString] at hok ⊢
  by_cases hn : n < 2 ^ 32
  · refine ⟨hn, ?_⟩
    simp only [hn, ite_true]
    rw [decodeMembers_TTL_null later _ hlater]
  · exfalso
    simp only [hn, ite_false] at hok
    cases saved1 with
    | some f =>
      simp only [Option.isSome_some, ite_true] at hok
      rw [decodeMembers_saved] at hok
      exact Option.noConfusion hok
    | none =>
      simp only [Option.isSome_none, Bool.false_eq_true, ite_false] at hok
      rw [decodeMembers_saved] at hok
      exact Option.noConfusion hok

/-- C7: a provider that `New` returns has server id `localhost` when the
payload has no `server_id` or an empty one and the configured one otherwise,
and ttl 300 when the payload has no `ttl` or `0` and the configured one
otherwise, the configured value being the one the payload gives last under the
key; so its ttl is positive (and fits a `uint32`), its server id, serverURL and
apiKey are non-empty, and `Update` puts this server id into the request URL and
this ttl into the RRset. -/
theorem New_normalizes (deps : Deps) (data : RawMessage) (domain owner : String)
    (ipVersion : IPVersion) (ipv6Suffix : Prefix) (p : Provider)
    (h : New deps data domain owner ipVersion ipv6Suffix = .ok p) :
    ∃ s, jsonUnmarshal data extraSettings.zero = (s, none) ∧
      p.serverID = (if s.ServerID = "" then "localhost" else s.ServerID) ∧
      p.ttl = (if s.TTL = 0 then 300 else s.TTL) ∧
      (∀ members, data = .document (.obj members) →
        (∀ kv ∈ members, lookupField kv.1 ≠ some .ServerID) → p.serverID = "localhost") ∧
      (∀ members, data = .document (.obj members) →
        (∀ kv ∈ members, lookupField kv.1 ≠ some .TTL) → p.ttl = 300) ∧
      (lookupField "server_id" = some .ServerID ∧ lookupField "ttl" = some .TTL) ∧
      (∀ (earlier later : List (String × JsonValue)) (key x : String),
        data = .document (.obj (earlier ++ (key, .str x) :: later)) →
        lookupField key = some .ServerID →
        (∀ kv ∈ later, lookupField kv.1 = some .ServerID → kv.2 = .null) →
        p.serverID = (if x = "" then "localhost" else x)) ∧
      (∀ (earlier later : List (String × JsonValue)) (key : String) (n : Nat),
        data = .document (.obj (earlier ++ (key, .number (toString n)) :: later)) →
        lookupField key = some .TTL →
        (∀ kv ∈ later, lookupField kv.1 = some .TTL → kv.2 = .null) →
        n < 2 ^ 32 ∧ p.ttl = (if n = 0 then 300 else n)) ∧
      0 < p.ttl ∧ p.ttl < 2 ^ 32 ∧ p.serverID ≠ "" ∧ p.serverURL ≠ "" ∧ p.apiKey ≠ "" ∧
      ∀ (ctx : Context) (client : Client) (ip : Addr), ctx = .live →
        deps.urlParse (p.serverURL ++ "/api/v1/servers/" ++ p.serverID ++ "/zones/"
          ++ (p.domain ++ ".")) = none →
        ∃ req, (p.Update deps ctx client ip).sent = [req] ∧
          req.url = p.serverURL ++ "/api/v1/servers/" ++ p.serverID ++ "/zones/"
            ++ p.domain ++ "." ∧
          rrsetMembers req.body "ttl" = [some (.number (toString p.ttl))] := by
  obtain ⟨s, hdec, hval, hp⟩ := New_ok deps data domain owner ipVersion ipv6Suffix p h
  obtain ⟨_, hurl, hkey, _⟩ := validateSettings_none deps domain s.ServerURL s.APIKey hval
  have hlt : s.TTL < 2 ^ 32 := by
    have := jsonUnmarshal_TTL_lt data
    rw [hdec] at this
    exact this
  have hid : p.serverID = (if s.ServerID = "" then "localhost" else s.ServerID) := by
    rw [hp]
  have httl : p.ttl = (if s.TTL = 0 then 300 else s.TTL) := by rw [hp]
  refine ⟨s, hdec, hid, httl, ?_, ?_, ⟨by decide, by decide⟩, ?_, ?_, ?_, ?_, ?_, ?_, ?_, ?_⟩
  · intro members hdata hno
    subst hdata
    have hs : s.ServerID = "" := by
      have := decodeMembers_ServerID members (extraSettings.zero, none) hno
      simp only [jsonUnmarshal] at hdec
      rw [hdec] at this
      exact this
    rw [hid, if_pos hs]
  · intro members hdata hno
    subst hdata
    have hs : s.TTL = 0 := by
      have := decodeMembers_TTL members (extraSettings.zero, none) hno
      simp only [jsonUnmarshal] at hdec
      rw [hdec] at this
      exact this
    rw [httl, if_pos hs]
  · intro earlier later key x hdata hk hlater
    subst hdata
    have hs : s.ServerID = x := by
      have := decodeMembers_ServerID_set earlier later key x (extraSettings.zero, none) hk
        hlater
      simp only [jsonUnmarshal] at hdec
      rw [hdec] at this
      exact this
    rw [hid, hs]
  · intro earlier later key n hdata hk hlater
    subst hdata
    simp only [jsonUnmarshal] at hdec
    have := decodeMembers_TTL_set earlier later key n (extraSettings.zero, none) hk hlater
      (by rw [hdec])
    rw [hdec] at this
    refine ⟨this.1, ?_⟩
    rw [httl, this.2]
  · rw [httl]
    split <;> omega
  · rw [httl]
    split
    · norm_num
    · exact hlt
  · rw [hid]
    split
    · decide
    · assumption
  · rw [hp]
    exact hurl
  · rw [hp]
    exact hkey
  · intro ctx client ip hctx hparse
    refine ⟨_, Update_sends deps p ctx client ip hctx hparse, ?_, ?_⟩
    · simp only [Provider.setHeaders, String.append_assoc]
    · simp [rrsetMembers, Provider.setHeaders, JsonValue.get?, JsonValue.elems]

/-- C7 at two payloads: with `server_url` and `api_key` only the provider has
server id `localhost` and ttl 300; with `server_id` `ns1` and `ttl` 60 as well
it has server id `ns1` and ttl 60. -/
theorem New_normalizes_witness :
    New sampleDeps (.document (.obj [("server_url", .str "http://localhost:8081"),
        ("api_key", .str "secret")])) "example.com" "home" .IP4or6
      { ip := .zero, bitsPlusOne := 0 } = .ok sampleProvider ∧
    sampleProvider.serverID = "localhost" ∧ sampleProvider.ttl = 300 ∧
    New sampleDeps (.document (.obj [("server_url", .str "http://localhost:8081"),
        ("api_key", .str "secret"), ("server_id", .str "ns1"), ("ttl", .number "60")]))
      "example.com" "home" .IP4or6 { ip := .zero, bitsPlusOne := 0 }
      = .ok { sampleProvider with serverID := "ns1", ttl := 60 } ∧
    ({ sampleProvider with serverID := "ns1", ttl := 60 } : Provider).serverID = "ns1" ∧
    ({ sampleProvider with serverID := "ns1", ttl := 60 } : Provider).ttl = 60 :=
  ⟨rfl,
    (New_normalizes sampleDeps (.document (.obj [("server_url", .str "http://localhost:8081"),
        ("api_key", .str "secret")])) "example.com" "home" .IP4or6
      { ip := .zero, bitsPlusOne := 0 } sampleProvider rfl).elim
      (fun _ hs => hs.2.2.2.1 _ rfl (by decide)),
    (New_normalizes sampleDeps (.document (.obj [("server_url", .str "http://localhost:8081"),
        ("api_key", .str "secret")])) "example.com" "home" .IP4or6
      { ip := .zero, bitsPlusOne := 0 } sampleProvider rfl).elim
      (fun _ hs => hs.2.2.2.2.1 _ rfl (by decide)),
    rfl,
    (New_normalizes sampleDeps (.document (.obj [("server_url", .str "http://localhost:8081"),
        ("api_key", .str "secret"), ("server_id", .str "ns1"), ("ttl", .number "60")]))
      "example.com" "home" .IP4or6 { ip := .zero, bitsPlusOne := 0 }
      { sampleProvider with serverID := "ns1", ttl := 60 } rfl).elim
      (fun _ hs => hs.2.2.2.2.2.2.1
        [("server_url", .str "http://localhost:8081"), ("api_key", .str "secret")]
        [("ttl", .number "60")] "server_id" "ns1" rfl (by decide)
        (by
          intro kv hkv hl
          rw [List.mem_singleton] at hkv
          subst hkv
          exact absurd hl (by decide))),
    (New_normalizes sampleDeps (.document (.obj [("server_url", .str "http://localhost:8081"),
        ("api_key", .str "secret"), ("server_id", .str "ns1"), ("ttl", .number "60")]))
      "example.com" "home" .IP4or6 { ip := .zero, bitsPlusOne := 0 }
      { sampleProvider with serverID := "ns1", ttl := 60 } rfl).elim
      (fun _ hs => (hs.2.2.2.2.2.2.2.1
        [("server_url", .str "http://localhost:8081"), ("api_key", .str "secret"),
          ("server_id", .str "ns1")]
        [] "ttl" 60 rfl (by decide) (by simp)).2)⟩

/-- C10: when the payload decodes, `CheckDomain` accepts the domain, the
decoded `server_url` is non-empty and parses and the decoded `api_key` is
non-empty, `New` returns a nil error and a provider whose `Domain`, `Owner`,
`IPVersion` and `IPv6Suffix` are the values passed in. -/
theorem New_echoes (deps : Deps) (data : RawMessage) (s : extraSettings)
    (domain owner : String) (ipVersion : IPVersion) (ipv6Suffix : Prefix)
    (hdec : jsonUnmarshal data extraSettings.zero = (s, none))
    (hdomain : deps.CheckDomain domain = none)
    (hurl : s.ServerURL ≠ "")
    (hparse : deps.urlParse s.ServerURL = none)
    (hkey : s.APIKey ≠ "") :
    ∃ p, New deps data domain owner ipVersion ipv6Suffix = .ok p ∧
      p.Domain = domain ∧ p.Owner = owner ∧ p.IPVersion = ipVersion ∧
      p.IPv6Suffix = ipv6Suffix := by
  have hval : validateSettings deps domain s.ServerURL s.APIKey = none := by
    simp [validateSettings, hdomain, hurl, hkey, hparse]
  exact ⟨_, New_of_valid deps data s domain owner ipVersion ipv6Suffix hdec hval,
    rfl, rfl, rfl, rfl⟩

/-- C10 at a payload with all four keys, an owner `@` and an IPv6 suffix. -/
theorem New_echoes_witness :
    jsonUnmarshal (.document (.obj [("server_url", .str "http://localhost:8081"),
        ("api_key", .str "secret"), ("server_id", .str "ns1"), ("ttl", .number "60")]))
      extraSettings.zero
      = ({ ServerURL := "http://localhost:8081", APIKey := "secret", ServerID := "ns1",
           TTL := 60 }, none) ∧
    sampleDeps.CheckDomain "example.com" = none ∧
    sampleDeps.urlParse "http://localhost:8081" = none ∧
    ∃ p, New sampleDeps (.document (.obj [("server_url", .str "http://localhost:8081"),
        ("api_key", .str "secret"), ("server_id", .str "ns1"), ("ttl", .number "60")]))
        "example.com" "@" .IP6 { ip := .v6 0 "", bitsPlusOne := 65 } = .ok p ∧
      p.Domain = "example.com" ∧ p.Owner = "@" ∧ p.IPVersion = .IP6 ∧
      p.IPv6Suffix = { ip := .v6 0 "", bitsPlusOne := 65 } :=
  ⟨rfl, rfl, rfl,
    New_echoes sampleDeps _
      { ServerURL := "http://localhost:8081", APIKey := "secret", ServerID := "ns1", TTL := 60 }
      "example.com" "@" .IP6 { ip := .v6 0 "", bitsPlusOne := 65 } rfl rfl (by decide) rfl
      (by decide)⟩

/-- C5: `validateSettings` checks in a fixed order and returns the error of
the first violation: a domain that `CheckDomain` rejects gives an error wrapping
`ErrDomainNotValid` whatever the other two are; otherwise an empty serverURL
gives one wrapping `ErrURLNotSet` whatever the apiKey is; otherwise an empty
apiKey gives one wrapping `ErrAPIKeyNotSet`; otherwise a serverURL that
`url.Parse` rejects gives an error wrapping none of the three; otherwise nil.
Each failure occurs with the other checks passing, as soon as `CheckDomain` and
`url.Parse` each accept one input and reject one. -/
theorem validateSettings_order (deps : Deps) (domain serverURL apiKey : String) :
    (∀ err, deps.CheckDomain domain = some err →
      validateSettings deps domain serverURL apiKey = some (.wrap2
        (deps.errText .ErrDomainNotValid ++ ": " ++ GoError.Error deps err)
        (.sentinel .ErrDomainNotValid) err) ∧
      ∀ e, validateSettings deps domain serverURL apiKey = some e →
        e.Is .ErrDomainNotValid = true) ∧
    (deps.CheckDomain domain = none → serverURL = "" →
      validateSettings deps domain serverURL apiKey
        = some (.wrap1 (deps.errText .ErrURLNotSet) (.sentinel .ErrURLNotSet)) ∧
      ∀ e, validateSettings deps domain serverURL apiKey = some e →
        e.Is .ErrURLNotSet = true ∧ e.Is .ErrDomainNotValid = false ∧
          e.Is .ErrAPIKeyNotSet = false) ∧
    (deps.CheckDomain domain = none → serverURL ≠ "" → apiKey = "" →
      validateSettings deps domain serverURL apiKey
        = some (.wrap1 (deps.errText .ErrAPIKeyNotSet) (.sentinel .ErrAPIKeyNotSet)) ∧
      ∀ e, validateSettings deps domain serverURL apiKey = some e →
        e.Is .ErrAPIKeyNotSet = true ∧ e.Is .ErrDomainNotValid = false ∧
          e.Is .ErrURLNotSet = false) ∧
    (deps.CheckDomain domain = none → serverURL ≠ "" → apiKey ≠ "" →
      ∀ msg, deps.urlParse serverURL = some msg →
      validateSettings deps domain serverURL apiKey
        = some (.wrap1 ("server URL is not valid: " ++ msg) (.leaf msg)) ∧
      ∀ e, validateSettings deps domain serverURL apiKey = some e →
        e.Is .ErrDomainNotValid = false ∧ e.Is .ErrURLNotSet = false ∧
          e.Is .ErrAPIKeyNotSet = false) ∧
    (deps.CheckDomain domain = none → serverURL ≠ "" → apiKey ≠ "" →
      deps.urlParse serverURL = none →
      validateSettings deps domain serverURL apiKey = none) ∧
    (∀ (good bad url badURL key : String),
      deps.CheckDomain good = none → deps.CheckDomain bad ≠ none →
      url ≠ "" → deps.urlParse url = none →
      badURL ≠ "" → deps.urlParse badURL ≠ none → key ≠ "" →
      (∃ e, validateSettings deps bad url key = some e ∧ e.Is .ErrDomainNotValid = true) ∧
      (∃ e, validateSettings deps good "" key = some e ∧ e.Is .ErrURLNotSet = true) ∧
      (∃ e, validateSettings deps good url "" = some e ∧ e.Is .ErrAPIKeyNotSet = true) ∧
      (∃ e, validateSettings deps good badURL key = some e ∧
        e.Is .ErrDomainNotValid = false ∧ e.Is .ErrURLNotSet = false ∧
        e.Is .ErrAPIKeyNotSet = false) ∧
      validateSettings deps good url key = none) := by
  refine ⟨?_, ?_, ?_, ?_, ?_, ?_⟩
  · intro err herr
    have hv : validateSettings deps domain serverURL apiKey = some (.wrap2
        (deps.errText .ErrDomainNotValid ++ ": " ++ GoError.Error deps err)
        (.sentinel .ErrDomainNotValid) err) := by
      simp [validateSettings, herr, GoError.Error]
    refine ⟨hv, ?_⟩
    intro e he
    rw [hv] at he
    simp only [Option.some.injEq] at he
    rw [← he]
    simp [GoError.Is]
  · intro hd hu
    have hv : validateSettings deps domain serverURL apiKey
        = some (.wrap1 (deps.errText .ErrURLNotSet) (.sentinel .ErrURLNotSet)) := by
      simp [validateSettings, hd, hu, GoError.Error]
    refine ⟨hv, ?_⟩
    intro e he
    rw [hv] at he
    simp only [Option.some.injEq] at he
    rw [← he]
    simp [GoError.Is]
  · intro hd hu hk
    have hv : validateSettings deps domain serverURL apiKey
        = some (.wrap1 (deps.errText .ErrAPIKeyNotSet) (.sentinel .ErrAPIKeyNotSet)) := by
      simp [validateSettings, hd, hu, hk, GoError.Error]
    refine ⟨hv, ?_⟩
    intro e he
    rw [hv] at he
    simp only [Option.some.injEq] at he
    rw [← he]
    simp [GoError.Is]
  · intro hd hu hk msg hp
    have hv : validateSettings deps domain serverURL apiKey
        = some (.wrap1 ("server URL is not valid: " ++ msg) (.leaf msg)) := by
      simp [validateSettings, hd, hu, hk, hp]
    refine ⟨hv, ?_⟩
    intro e he
    rw [hv] at he
    simp only [Option.some.injEq] at he
    rw [← he]
    simp [GoError.Is]
  · intro hd hu hk hp
    simp [validateSettings, hd, hu, hk, hp]
  · intro good bad url badURL key hgood hbad hurl hparse hbadURL hbadParse hkey
    refine ⟨?_, ?_, ?_, ?_, ?_⟩
    · cases hb : deps.CheckDomain bad with
      | none => exact absurd hb hbad
      | some err =>
        exact ⟨.wrap2 (deps.errText .ErrDomainNotValid ++ ": " ++ GoError.Error deps err)
          (.sentinel .ErrDomainNotValid) err,
          by simp [validateSettings, hb, GoError.Error], by simp [GoError.Is]⟩
    · exact ⟨.wrap1 (deps.errText .ErrURLNotSet) (.sentinel .ErrURLNotSet),
        by simp [validateSettings, hgood, GoError.Error], by simp [GoError.Is]⟩
    · exact ⟨.wrap1 (deps.errText .ErrAPIKeyNotSet) (.sentinel .ErrAPIKeyNotSet),
        by simp [validateSettings, hgood, hurl, GoError.Error], by simp [GoError.Is]⟩
    · cases hb : deps.urlParse badURL with
      | none => exact absurd hb hbadParse
      | some msg =>
        exact ⟨.wrap1 ("server URL is not valid: " ++ msg) (.leaf msg),
          by simp [validateSettings, hgood, hbadURL, hkey, hb], by simp [GoError.Is]⟩
    · simp [validateSettings, hgood, hurl, hkey, hparse]

/-- C5 in the sample environment: each of the four failures with the other
checks passing, and the success. -/
theorem validateSettings_order_witness :
    (∃ e, validateSettings sampleDeps "" "http://localhost:8081" "secret" = some e ∧
      e.Is .ErrDomainNotValid = true) ∧
    (∃ e, validateSettings sampleDeps "example.com" "" "secret" = some e ∧
      e.Is .ErrURLNotSet = true) ∧
    (∃ e, validateSettings sampleDeps "example.com" "http://localhost:8081" "" = some e ∧
      e.Is .ErrAPIKeyNotSet = true) ∧
    (∃ e, validateSettings sampleDeps "example.com" "http://local\nhost" "secret" = some e ∧
      e.Is .ErrDomainNotValid = false ∧ e.Is .ErrURLNotSet = false ∧
      e.Is .ErrAPIKeyNotSet = false) ∧
    validateSettings sampleDeps "example.com" "http://localhost:8081" "secret" = none :=
  (validateSettings_order sampleDeps "" "" "").2.2.2.2.2 "example.com" ""
    "http://localhost:8081" "http://local\nhost" "secret" rfl (by decide) (by decide) rfl
    (by decide) (by decide) (by decide)

/-- C6 as stated fails: with a payload whose `ttl` is a string, `New` returns
the decoding error for the empty domain, although `CheckDomain` rejects that
domain, and the error does not wrap `ErrDomainNotValid`. -/
theorem New_domain_error_counterexample :
    sampleDeps.CheckDomain "" ≠ none ∧
    New sampleDeps (.document (.obj [("server_url", .str "http://localhost:8081"),
        ("api_key", .str "secret"), ("ttl", .str "5m")])) "" "home" .IP4or6
      { ip := .zero, bitsPlusOne := 0 }
      = .error (.leaf (sampleDeps.jsonErrorText (.typeMismatch "string" "ttl"))) ∧
    (GoError.leaf (sampleDeps.jsonErrorText (.typeMismatch "string" "ttl"))).Is
      .ErrDomainNotValid = false :=
  ⟨by decide, rfl, rfl⟩

/-- C6, amended: for every payload that decodes and every domain that
`CheckDomain` rejects, `New` returns a nil provider and an error that wraps
`ErrDomainNotValid`, whatever the decoded `server_url`, `api_key`, `server_id`
and `ttl` are and whatever owner, ipVersion and ipv6Suffix are passed. -/
theorem New_domain_error (deps : Deps) (data : RawMessage) (s : extraSettings)
    (domain owner : String) (ipVersion : IPVersion) (ipv6Suffix : Prefix)
    (hdec : jsonUnmarshal data extraSettings.zero = (s, none))
    (hdomain : deps.CheckDomain domain ≠ none) :
    ∃ e, New deps data domain owner ipVersion ipv6Suffix = .error e ∧
      e.Is .ErrDomainNotValid = true := by
  cases hd : deps.CheckDomain domain with
  | none => exact absurd hd hdomain
  | some err =>
    refine ⟨.wrap1 ("validating provider specific settings: " ++
      (deps.errText .ErrDomainNotValid ++ ": " ++ GoError.Error deps err))
      (.wrap2 (deps.errText .ErrDomainNotValid ++ ": " ++ GoError.Error deps err)
        (.sentinel .ErrDomainNotValid) err), ?_, by simp [GoError.Is]⟩
    unfold New
    rw [hdec]
    simp [validateSettings, hd, GoError.Error]

/-- C6, amended, at the empty domain with every other field missing. -/
theorem New_domain_error_witness :
    jsonUnmarshal (.document (.obj [])) extraSettings.zero = (extraSettings.zero, none) ∧
    sampleDeps.CheckDomain "" ≠ none ∧
    ∃ e, New sampleDeps (.document (.obj [])) "" "home" .IP4or6
        { ip := .zero, bitsPlusOne := 0 } = .error e ∧
      e.Is .ErrDomainNotValid = true :=
  ⟨rfl, by decide,
    New_domain_error sampleDeps (.document (.obj [])) extraSettings.zero "" "home" .IP4or6
      { ip := .zero, bitsPlusOne := 0 } rfl (by decide)⟩

/-- Setting a key and deleting it again forgets the value that was set. -/
theorem Header.Del_Set (h : Header) (key v w : String) :
    (h.Set key v).Del key = (h.Set key w).Del key := by
  funext k
  by_cases hk : k = CanonicalMIMEHeaderKey key <;> simp [Header.Set, Header.Del, hk]

/-- C9: two providers that differ only in `apiKey` have the same `String()`
and the same `HTML()`; for the same IP and the same transport outcome their
`Update` returns the same IP and the same error, hence the same error text; and
the requests they send differ at most in the `X-API-Key` header. -/
theorem apiKey_confined (deps : Deps) (p : Provider) (key : String) (ctx : Context)
    (client client1 : Client) (ip : Addr)
    (hsame : ∀ req req1, (p.Update deps ctx client ip).sent = [req] →
      (({ p with apiKey := key } : Provider).Update deps ctx client1 ip).sent = [req1] →
      client req = client1 req1) :
    p.String deps = ({ p with apiKey := key } : Provider).String deps ∧
    p.HTML deps = ({ p with apiKey := key } : Provider).HTML deps ∧
    (p.Update deps ctx client ip).newIP
      = (({ p with apiKey := key } : Provider).Update deps ctx client1 ip).newIP ∧
    (p.Update deps ctx client ip).err
      = (({ p with apiKey := key } : Provider).Update deps ctx client1 ip).err ∧
    ((p.Update deps ctx client ip).err.map (GoError.Error deps)
      = (({ p with apiKey := key } : Provider).Update deps ctx client1 ip).err.map
          (GoError.Error deps)) ∧
    List.Forall₂
      (fun r r1 : Request => r.method = r1.method ∧ r.url = r1.url ∧ r.body = r1.body ∧
        r.header.Del "X-API-Key" = r1.header.Del "X-API-Key")
      (p.Update deps ctx client ip).sent
      (({ p with apiKey := key } : Provider).Update deps ctx client1 ip).sent := by
  have hres : (p.Update deps ctx client ip).newIP
        = (({ p with apiKey := key } : Provider).Update deps ctx client1 ip).newIP ∧
      (p.Update deps ctx client ip).err
        = (({ p with apiKey := key } : Provider).Update deps ctx client1 ip).err ∧
      List.Forall₂
        (fun r r1 : Request => r.method = r1.method ∧ r.url = r1.url ∧ r.body = r1.body ∧
          r.header.Del "X-API-Key" = r1.header.Del "X-API-Key")
        (p.Update deps ctx client ip).sent
        (({ p with apiKey := key } : Provider).Update deps ctx client1 ip).sent := by
    cases ctx with
    | nil => simp [Provider.Update, jsonEncode, NewRequestWithContext]
    | live =>
      cases hurl : deps.urlParse
          (p.serverURL ++ "/api/v1/servers/" ++ p.serverID ++ "/zones/" ++ (p.domain ++ ".")) with
      | some msg => simp [Provider.Update, jsonEncode, NewRequestWithContext, hurl]
      | none =>
        have h1 := Update_sends deps p .live client ip rfl hurl
        have h2 := Update_sends deps ({ p with apiKey := key } : Provider) .live client1 ip rfl
          hurl
        have hc := hsame _ _ h1 h2
        rw [Update_of_request deps p .live client ip _ h1,
          Update_of_request deps _ .live client1 ip _ h2, ← hc]
        cases client (p.setHeaders deps
          { method := "PATCH"
            url := p.serverURL ++ "/api/v1/servers/" ++ p.serverID ++ "/zones/"
              ++ (p.domain ++ ".")
            header := fun _ => none
            body := .obj [("rrsets", .arr [.obj [
              ("name", .str (deps.BuildURLQueryHostname p.owner p.domain ++ ".")),
              ("type", .str (if ip.Is6 then "AAAA" else "A")),
              ("ttl", .number (toString p.ttl)),
              ("changetype", .str "REPLACE"),
              ("records", .arr [.obj [("content", .str ip.String),
                ("disabled", .bool false)]])]])] }) with
        | error e =>
          simp only [List.forall₂_cons, List.Forall₂.nil, and_true, true_and]
          exact ⟨rfl, rfl, rfl, Header.Del_Set _ _ _ _⟩
        | ok r =>
          by_cases hs : r.StatusCode = StatusNoContent
          · simp only [hs, ne_eq, not_true_eq_false, ite_false, List.forall₂_cons,
              List.Forall₂.nil, and_true, true_and]
            exact ⟨rfl, rfl, rfl, Header.Del_Set _ _ _ _⟩
          · simp only [hs, ne_eq, not_false_eq_true, ite_true, List.forall₂_cons,
              List.Forall₂.nil, and_true, true_and]
            exact ⟨rfl, rfl, rfl, Header.Del_Set _ _ _ _⟩
  exact ⟨rfl, rfl, hres.1, hres.2.1, by rw [hres.2.1], hres.2.2⟩

/-- C9 at a sample provider and the key `other`, the transport answering 401
with a body to both. -/
theorem apiKey_confined_witness :
    (sampleProvider.Update sampleDeps .live (fun _ => .ok ⟨401, "denied"⟩)
      (.v4 0xC0000201)).err
      = (({ sampleProvider with apiKey := "other" } : Provider).Update sampleDeps .live
          (fun _ => .ok ⟨401, "denied"⟩) (.v4 0xC0000201)).err ∧
    (sampleProvider.Update sampleDeps .live (fun _ => .ok ⟨401, "denied"⟩)
      (.v4 0xC0000201)).err.map (GoError.Error sampleDeps)
      = some "HTTP status is not valid: 401: denied" :=
  ⟨(apiKey_confined sampleDeps sampleProvider "other" .live (fun _ => .ok ⟨401, "denied"⟩)
      (fun _ => .ok ⟨401, "denied"⟩) (.v4 0xC0000201) (fun _ _ _ _ => rfl)).2.2.2.1,
    by decide⟩

end PowerDNS
